import Mathlib

/-!
Verification of the tlmerge preprocessing subsystem against its
natural-language specification.

Each section below is a shallow embedding of one part of the Python source
(configuration validation, the worker pool error accounting, the scanner
sampling loop, the database upsert logic, and the orchestrator stall ladder),
followed by theorems that settle the specification claims. Python floats are
modelled as exact rationals, fallible code returns Except, and the while
loops of the source are modelled with explicit fuel.
-/

set_option linter.unusedVariables false

namespace Tlmerge

/-- Errors raised by the modelled Python code. -/
inductive PyError where
  | valueError
  | typeError
  | keyError
  | attributeError
  | notImplementedError
  | validationError
  | indexError
  | fuelExhausted
deriving DecidableEq

/-! ### CLI sample validation (src/src/tlmerge/conf/cli_args.py, _validate)

The sample check reads:

  p = args.sample[1:] if args.sample.startswith(tilde) else args.sample
  try:
      i = int(p)
      if i == 0 or i < -1 or (p == tilde-minus-one):
          raise ValueError()
  except ValueError:
      sys.exit(...)
-/

/-- Model of the Python builtin int() applied to a short CLI string (given as
its character list): optional surrounding whitespace, an optional sign, then
one or more decimal digits. -/
def parsePyInt (cs : List Char) : Option Int :=
  let trimmed :=
    ((cs.dropWhile Char.isWhitespace).reverse.dropWhile Char.isWhitespace).reverse
  let (neg, digits) :=
    match trimmed with
    | '-' :: rest => (true, rest)
    | '+' :: rest => (false, rest)
    | rest => (false, rest)
  if digits.length > 0 && digits.all Char.isDigit then
    let n : Nat := digits.foldl (fun a c => a * 10 + (c.toNat - 48)) 0
    some (if neg then -(n : Int) else (n : Int))
  else
    none

/-- The sample check of cli_args._validate: returns true when the value is
accepted (no sys.exit). The string p compared against the literal "~-1" has
already had its tilde removed, exactly as in the source. -/
def validateSample (sample : String) : Bool :=
  let p : List Char :=
    match sample.data with
    | '~' :: rest => rest
    | cs => cs
  match parsePyInt p with
  | none => false
  | some i => !(i == 0 || i < -1 || p == "~-1".data)

/-! ### CLI max_processing_errors (cli_args._validate and RootConfig) -/

/-- cli_args._validate: exits iff args.max_processing_errors < 0; the value is
accepted when it is non-negative. -/
def validateMaxProcessingErrors (n : Int) : Bool := !(n < 0)

/-- RootConfig.set_max_processing_errors validates its argument with the
Pydantic annotation Field(ge=1): the setter accepts the value iff it is at
least 1 (src/src/tlmerge/conf/config.py line 1308). -/
def setMaxProcessingErrorsAccepts (n : Int) : Bool := 1 ≤ n

/-! ### Worker count determination
(src/src/tlmerge/preprocess/preprocessor.py, _determine_pool_worker_count)

  sample, s_random, s_size = self.root_cfg.sample_details()
  cfg_workers = self.root_cfg.workers()
  if cfg_workers < 2:
      workers = 2
  elif 2 <= s_size + 1 < cfg_workers:
      workers = s_size + 1
  else:
      workers = cfg_workers
  ...
  return workers - 1

s_size is -1 when sampling is disabled, otherwise the sample size.
-/

/-- Total worker count chosen by the orchestrator (the value logged as the
number of workers, one of which is reserved for the scanner thread). -/
def determineTotalWorkers (cfgWorkers sSize : Int) : Int :=
  if cfgWorkers < 2 then 2
  else if 2 ≤ sSize + 1 ∧ sSize + 1 < cfgWorkers then sSize + 1
  else cfgWorkers

/-- The value returned by _determine_pool_worker_count, used as max_workers of
the photo worker pool: the total minus one. -/
def determinePoolWorkerCount (cfgWorkers sSize : Int) : Int :=
  determineTotalWorkers cfgWorkers sSize - 1

/-- The worker-count formula as the claim words it: 2 if W < 2; else S+1 if
0 ≤ S+1 < W; else W. Written from the specification text, for comparison
with the source function above. -/
def claimTotalWorkers (cfgWorkers sSize : Int) : Int :=
  if cfgWorkers < 2 then 2
  else if 0 ≤ sSize + 1 ∧ sSize + 1 < cfgWorkers then sSize + 1
  else cfgWorkers

/-- The amended worker-count formula: the middle branch applies only when
2 ≤ S+1 < W, i.e. when a sample of size at least 1 is active and smaller
than W - 1. Stated independently of the source function for comparison. -/
def amendedTotalWorkers (cfgWorkers sSize : Int) : Int :=
  if cfgWorkers < 2 then 2
  else if 1 ≤ sSize ∧ sSize + 1 < cfgWorkers then sSize + 1
  else cfgWorkers

/-! ### Bounded worker pool (src/src/tlmerge/utils/worker_pool.py)

The error bookkeeping of WorkerPool._run_task, modelled sequentially (one
task processed at a time; waiting for peer workers is a no-op). The source:

  fatal = isinstance(err, MemoryError) or not isinstance(err, Exception)
  if fatal or self._error_handler is None:
      if fatal:
          if self._exception is None: self._exception = err
      else:
          self._errors.append(err)
          if len(self._errors) <= self._error_threshold: return
  elif self._error_handler(err, identifier):
      return
  # cancel section
  if self._state == CANCELLING: return
  else: self._state = CANCELLING
  ... wait for peers ...
  if self._exception is None:
      self._exception = WorkerPoolExceptionGroup.from_errors(threshold, errors)
  self._state = FINISHED
-/

inductive PoolState where
  | notStarted
  | running
  | closed
  | cancelling
  | finished
deriving DecidableEq

/-- The terminal exception of the pool: either the composite
WorkerPoolExceptionGroup.from_errors(threshold, errors) or a fatal error. -/
inductive PoolException (E : Type) where
  | group (threshold : Nat) (errors : List E)
  | fatal (err : E)
deriving DecidableEq

structure WorkerPool (E : Type) where
  errorThreshold : Nat
  errors : List E
  exception : Option (PoolException E)
  state : PoolState
deriving DecidableEq

/-- The outcome of executing one task: it returns normally, or raises an
exception that is fatal (MemoryError / strictly BaseException) or not. -/
inductive TaskOutcome (E : Type) where
  | success
  | failure (err : E) (fatal : Bool)

/-- The cancel section at the end of _run_task: transition to CANCELLING,
wait for the peers (a no-op here), record the composite exception group
unless a fatal exception was already recorded, and finish. -/
def completeCancellation {E : Type} (p : WorkerPool E) : WorkerPool E :=
  if p.state = .cancelling then p
  else
    let p1 : WorkerPool E := { p with state := .cancelling }
    let exc :=
      match p1.exception with
      | some e => some e
      | none => some (.group p1.errorThreshold p1.errors)
    { p1 with exception := exc, state := .finished }

/-- WorkerPool._run_task for one task, given the configured error handler. -/
def runTask {E : Type} (handler : Option (E → Bool)) (p : WorkerPool E)
    (o : TaskOutcome E) : WorkerPool E :=
  match o with
  | .success => p
  | .failure err fatal =>
    if fatal || handler.isNone then
      if fatal then
        completeCancellation
          (if p.exception.isNone then { p with exception := some (.fatal err) } else p)
      else
        let p1 : WorkerPool E := { p with errors := p.errors ++ [err] }
        if p1.errors.length ≤ p1.errorThreshold then p1
        else completeCancellation p1
    else
      match handler with
      | some h => if h err then p else completeCancellation p
      | none => p

/-- Run a sequence of task outcomes through the pool, one at a time. -/
def runTasks {E : Type} (handler : Option (E → Bool)) (p : WorkerPool E)
    (os : List (TaskOutcome E)) : WorkerPool E :=
  os.foldl (runTask handler) p

/-- A freshly started pool (state RUNNING, no errors) with the given error
threshold. -/
def startedPool (E : Type) (threshold : Nat) : WorkerPool E :=
  { errorThreshold := threshold, errors := [], exception := none, state := .running }

/-! ### Config option propagation (src/src/tlmerge/conf/config.py)

BaseConfig setters store the canonical value on the record and then loop over
self._children calling the same setter; but set_thumbnail_path propagates by
calling child.set_thumbnail_location.raw_function(child, p) with the Path p
(config.py line 830). -/

inductive ThumbLocation where
  | root
  | date
  | group
  | custom
deriving DecidableEq

/-- A Python value handed to set_thumbnail_location: a ThumbLocation enum
member, a string, or a pathlib.Path object. -/
inductive PyVal where
  | loc (l : ThumbLocation)
  | str (s : String)
  | path (p : String)

/-- The option fields of a BaseConfig record needed for claim C4. -/
structure BaseConfig where
  medianFilter : Nat
  thumbnailLocation : ThumbLocation
  thumbnailPath : String
deriving DecidableEq

/-- ThumbLocation[name.upper()] for a lowercase name string. -/
def thumbLocationOfName (s : String) : Option ThumbLocation :=
  if s = "root" then some .root
  else if s = "date" then some .date
  else if s = "group" then some .group
  else if s = "custom" then some .custom
  else none

/-- The undecorated body of BaseConfig.set_thumbnail_location applied to one
record (child propagation elided). A ThumbLocation is stored directly;
"project" maps to ROOT and "other" to CUSTOM; any other string is looked up
as ThumbLocation[l.upper()], raising KeyError when unknown. A pathlib.Path
reaches that same lookup, and Path has no attribute upper, so the call
raises AttributeError. -/
def setThumbnailLocationRaw (c : BaseConfig) (v : PyVal) : Except PyError BaseConfig :=
  match v with
  | .loc l => .ok { c with thumbnailLocation := l }
  | .str s =>
    if s = "project" then .ok { c with thumbnailLocation := .root }
    else if s = "other" then .ok { c with thumbnailLocation := .custom }
    else
      match thumbLocationOfName s with
      | some l => .ok { c with thumbnailLocation := l }
      | none => .error .keyError
  | .path _ => .error .attributeError

/-- A parent config record together with its existing children. -/
structure ParentConfig where
  own : BaseConfig
  children : List BaseConfig
deriving DecidableEq

/-- BaseConfig.set_median_filter: store the value, then propagate the same
setter to every child. -/
def setMedianFilterAll (p : ParentConfig) (v : Nat) : ParentConfig :=
  { own := { p.own with medianFilter := v },
    children := p.children.map (fun c => { c with medianFilter := v }) }

/-- BaseConfig.set_thumbnail_path: store the path on the record itself, then
loop over the children calling child.set_thumbnail_location.raw_function
(not set_thumbnail_path) with the Path object. -/
def setThumbnailPathAll (p : ParentConfig) (v : String) : Except PyError ParentConfig := do
  let own1 : BaseConfig := { p.own with thumbnailPath := v }
  let children1 ← p.children.mapM (fun c => setThumbnailLocationRaw c (.path v))
  return { own := own1, children := children1 }

/-- A concrete config record used for concrete evaluations. -/
def demoBaseConfig : BaseConfig :=
  { medianFilter := 0, thumbnailLocation := .root, thumbnailPath := "thumb" }

/-! ### Config tree inheritance for white balance
(src/src/tlmerge/conf/config.py, set_white_balance at every level)

Each setter stores the canonical value and recursively re-runs itself on
every existing child, so a root-level set reaches every grandchild. -/

inductive WhiteBalance where
  | auto
  | camera
  | default
  | mults (r g1 b g2 : ℚ)
deriving DecidableEq

structure GroupConfig where
  whiteBalance : WhiteBalance
deriving DecidableEq

structure DateConfig where
  whiteBalance : WhiteBalance
  children : List GroupConfig
deriving DecidableEq

structure RootConfig where
  whiteBalance : WhiteBalance
  children : List DateConfig
deriving DecidableEq

def GroupConfig.setWhiteBalance (g : GroupConfig) (v : WhiteBalance) : GroupConfig :=
  { whiteBalance := v }

def DateConfig.setWhiteBalance (d : DateConfig) (v : WhiteBalance) : DateConfig :=
  { whiteBalance := v, children := d.children.map (fun g => g.setWhiteBalance v) }

def RootConfig.setWhiteBalance (r : RootConfig) (v : WhiteBalance) : RootConfig :=
  { whiteBalance := v, children := r.children.map (fun d => d.setWhiteBalance v) }

/-- Replace the element at index i (if any) by f applied to it. -/
def modifyAt {α : Type} (l : List α) (i : Nat) (f : α → α) : List α :=
  match l, i with
  | [], _ => []
  | x :: xs, 0 => f x :: xs
  | x :: xs, n + 1 => x :: modifyAt xs n f

/-- Override the option on one group record (obtained through the
ConfigManager) by calling its own setter, as a user override does. -/
def RootConfig.setGroupWhiteBalance (r : RootConfig) (i j : Nat)
    (v : WhiteBalance) : RootConfig :=
  { r with
    children :=
      modifyAt r.children i fun d =>
        { d with children := modifyAt d.children j fun g => g.setWhiteBalance v } }

/-- Read the white balance stored on the group config at position (i, j). -/
def groupWhiteBalance (r : RootConfig) (i j : Nat) : Option WhiteBalance :=
  r.children[i]?.bind fun d => d.children[j]?.map GroupConfig.whiteBalance

/-- A concrete config tree with one date child and one group grandchild. -/
def demoRoot : RootConfig :=
  { whiteBalance := .default,
    children := [{ whiteBalance := .default,
                   children := [{ whiteBalance := .default }] }] }

/-! ### Random photo iterator (src/tlmerge/scan/scan_impl.py,
iter_photos_random and DateIterator)

A project is given as the list of date directories in the (shuffled) order
produced by the date generator; each date is a list of groups in the
(shuffled) order of its group generator; each group is its (shuffled) list
of photo paths. Validation is disabled (validate=False), so every scanned
file counts as a photo. -/

/-- The per-date state of iter_photos_random: the photo generator of the
currently open group and the generator of the remaining groups. -/
structure DateIterator where
  photoGen : List String
  groupGen : List (List String)
deriving DecidableEq

/-- DateIterator.__init__: open the first group of the date; when the date
has no groups, next(self.group_gen) raises StopIteration (modelled none). -/
def DateIterator.start (groups : List (List String)) : Option DateIterator :=
  match groups with
  | [] => none
  | g :: gs => some { photoGen := g, groupGen := gs }

/-- DateIterator.next_photo: yield the next photo of the open group. When the
open group is exhausted and further groups remain, the source executes
  self.photo_gen = iter_photos(group, randomize=True)
but iter_photos accepts keyword-only arguments, so this call raises
TypeError. When no groups remain either, the date is exhausted (None). -/
def DateIterator.nextPhoto (it : DateIterator) :
    Except PyError (Option (String × DateIterator)) :=
  match it.photoGen with
  | p :: rest => .ok (some (p, { it with photoGen := rest }))
  | [] =>
    match it.groupGen with
    | _ :: _ => .error .typeError
    | [] => .ok none

/-- The mutable state of the main loop of iter_photos_random. -/
structure RandomScanState where
  dateGen : List (List (List String))
  openDates : List DateIterator
  g : Nat
  yielded : List String
  totalFiles : Nat
  sampleSize : Nat
deriving DecidableEq

/-- metrics.remaining_photos = self._estimate - self.total_photos; with a
fixed-size sample the estimate is the sample size, and with validation off
total_photos equals the file counter. -/
def remainingPhotos (st : RandomScanState) : Int :=
  (st.sampleSize : Int) - (st.totalFiles : Int)

/-- What one passage through (part of) the loop body does next. -/
inductive LoopStep where
  | broke (out : List String)
  | continueTop (st : RandomScanState)
  | fallThrough (st : RandomScanState)
  | err (e : PyError)

/-- First part of the loop body: while more photos are needed than there are
open dates past the cursor, open another date. When the date generator is
exhausted this sets date_gen = None and BREAKS the whole loop (the source
breaks even though open dates may still hold photos). An empty date is
skipped with continue. -/
def randomScanOpenDate (st : RandomScanState) : LoopStep :=
  if (st.openDates.length : Int) - (st.g : Int) < remainingPhotos st then
    match st.dateGen with
    | [] => .broke st.yielded
    | d :: ds =>
      match DateIterator.start d with
      | none => .continueTop { st with dateGen := ds }
      | some it =>
        .fallThrough { st with dateGen := ds, openDates := st.openDates ++ [it] }
  else .fallThrough st

/-- Rest of the loop body: wrap the cursor (break when there are no open
dates at all), pull one photo from the date under the cursor, drop the date
when it is exhausted, otherwise yield the photo, stop when the sample size
is reached, and advance the cursor. -/
def randomScanTake (st : RandomScanState) : LoopStep :=
  let st1 :=
    if st.g ≥ st.openDates.length then { st with g := 0 } else st
  if st.g ≥ st.openDates.length ∧ st.g = 0 then .broke st.yielded
  else
    match st1.openDates[st1.g]? with
    | none => .err .indexError
    | some it =>
      match it.nextPhoto with
      | .error e => .err e
      | .ok none =>
        .continueTop { st1 with openDates := st1.openDates.eraseIdx st1.g }
      | .ok (some (p, it1)) =>
        let st2 := { st1 with openDates := st1.openDates.set st1.g it1 }
        let st3 := { st2 with
          yielded := st2.yielded ++ [p]
          totalFiles := st2.totalFiles + 1 }
        if st3.totalFiles = st3.sampleSize then .broke st3.yielded
        else .continueTop { st3 with g := st3.g + 1 }

/-- The while-True loop of iter_photos_random, with fuel. -/
def randomScanLoop (fuel : Nat) (st : RandomScanState) : Except PyError (List String) :=
  match fuel with
  | 0 => .error .fuelExhausted
  | fuel + 1 =>
    match randomScanOpenDate st with
    | .broke out => .ok out
    | .err e => .error e
    | .continueTop st1 => randomScanLoop fuel st1
    | .fallThrough st1 =>
      match randomScanTake st1 with
      | .broke out => .ok out
      | .err e => .error e
      | .continueTop st2 => randomScanLoop fuel st2
      | .fallThrough st2 => randomScanLoop fuel st2

/-- iter_photos_random: raises ValueError when sample_size < 1, otherwise
runs the main loop from the empty state. -/
def iterPhotosRandom (dates : List (List (List String))) (sampleSize : Nat)
    (fuel : Nat) : Except PyError (List String) :=
  if sampleSize < 1 then .error .valueError
  else
    randomScanLoop fuel
      { dateGen := dates, openDates := [], g := 0, yielded := [],
        totalFiles := 0, sampleSize := sampleSize }

/-! ### Config tree construction (src/src/tlmerge/conf/manager.py and
config.py _make_child)

ConfigManager owns the RootConfig and a map keyed by (date_dir, group_dir?).
RootConfig._make_child creates a DateConfig, DateConfig._make_child creates
a GroupConfig, and GroupConfig._make_child raises NotImplementedError.
new_date validates the directory name against date_format and attaches a
child to the root; new_group attaches a child to the date config, creating
the date config first when missing. -/

inductive ConfigKind where
  | root
  | date
  | group
deriving DecidableEq

/-- A config record in the tree: its identity, its level, and a back
reference to the record whose _children list holds it. -/
structure ConfigNode where
  id : Nat
  kind : ConfigKind
  parent : Option Nat
deriving DecidableEq

/-- The manager state: all config records, the _tree map from
(date_dir, group_dir?) to the record id, and a fresh-id counter. -/
structure ConfigManager where
  nodes : List ConfigNode
  entries : List ((String × Option String) × Nat)
  nextId : Nat
deriving DecidableEq

/-- A fresh manager holding only the RootConfig (id 0). -/
def emptyManager : ConfigManager :=
  { nodes := [{ id := 0, kind := .root, parent := none }], entries := [], nextId := 1 }

/-- Which child class _make_child instantiates at each level; for a
GroupConfig the method raises NotImplementedError. -/
def childKind : ConfigKind → Except PyError ConfigKind
  | .root => .ok .date
  | .date => .ok .group
  | .group => .error .notImplementedError

def ConfigManager.findNode (m : ConfigManager) (i : Nat) : Option ConfigNode :=
  m.nodes.find? (fun n => n.id = i)

/-- parent._make_child(...): append a child record of the kind dictated by
the parent level, or fail for group parents. -/
def ConfigManager.makeChildOf (m : ConfigManager) (pid : Nat) :
    Except PyError (ConfigManager × Nat) :=
  match m.findNode pid with
  | none => .error .keyError
  | some parentNode =>
    match childKind parentNode.kind with
    | .error e => .error e
    | .ok k =>
      .ok ({ nodes := m.nodes ++ [{ id := m.nextId, kind := k, parent := some pid }],
             entries := m.entries, nextId := m.nextId + 1 }, m.nextId)

def ConfigManager.lookupEntry (m : ConfigManager) (key : String × Option String) :
    Option Nat :=
  (m.entries.find? (fun e => e.1 = key)).map (fun e => e.2)

/-- ConfigManager.new_date: validate the date directory name against the
date format, then self._root._make_child(date_dir) and record it in the
tree map. -/
def ConfigManager.newDate (fmtOk : String → Bool) (m : ConfigManager)
    (dateDir : String) : Except PyError (ConfigManager × Nat) :=
  if fmtOk dateDir then
    match m.makeChildOf 0 with
    | .error e => .error e
    | .ok (m1, cid) =>
      .ok ({ m1 with entries := m1.entries ++ [((dateDir, none), cid)] }, cid)
  else .error .valueError

/-- ConfigManager.new_group: fetch (or lazily create) the date config, then
date_cfg._make_child(group_dir) and record it in the tree map. -/
def ConfigManager.newGroup (fmtOk : String → Bool) (m : ConfigManager)
    (dateDir groupDir : String) : Except PyError (ConfigManager × Nat) :=
  let dateRes : Except PyError (ConfigManager × Nat) :=
    match m.lookupEntry (dateDir, none) with
    | some did => .ok (m, did)
    | none => m.newDate fmtOk dateDir
  match dateRes with
  | .error e => .error e
  | .ok (m1, did) =>
    match m1.makeChildOf did with
    | .error e => .error e
    | .ok (m2, gid) =>
      .ok ({ m2 with entries := m2.entries ++ [((dateDir, some groupDir), gid)] }, gid)

/-- The operations through which ConfigManager grows the tree. -/
inductive ConfigOp where
  | newDate (dateDir : String)
  | newGroup (dateDir groupDir : String)

/-- Apply one operation; a raised error leaves the manager unchanged. -/
def applyConfigOp (fmtOk : String → Bool) (m : ConfigManager) (op : ConfigOp) :
    ConfigManager :=
  match op with
  | .newDate d =>
    match m.newDate fmtOk d with
    | .ok (m1, _) => m1
    | .error _ => m
  | .newGroup d g =>
    match m.newGroup fmtOk d g with
    | .ok (m1, _) => m1
    | .error _ => m

/-- Apply a whole sequence of operations to a fresh manager. -/
def applyConfigOps (fmtOk : String → Bool) (ops : List ConfigOp) : ConfigManager :=
  ops.foldl (applyConfigOp fmtOk) emptyManager

/-- Length of the parent chain from the record with the given id up to a
record with no parent, computed with fuel. -/
def depthFrom (nodes : List ConfigNode) : Nat → Nat → Nat
  | 0, _ => 0
  | fuel + 1, i =>
    match nodes.find? (fun n => n.id = i) with
    | none => 0
    | some n =>
      match n.parent with
      | none => 1
      | some p => depthFrom nodes fuel p + 1

/-! ### Orchestrator stall ladder (src/src/tlmerge/preprocess/preprocessor.py,
Preprocessor._apply_metadata)

After t consecutive Empty timeouts of 0.1 seconds each, the source runs:

  if 0 <= t * timeout - 10 < timeout or 0 <= t * timeout - 30 < timeout:
      log warning
  elif 0 <= t * timeout - 300 < timeout:
      photos = list(self._enqueued_photos.keys())[:10]
      raise RuntimeError(...)
  elif t * timeout >= 60 and (t * timeout) % 60 < timeout:
      log pool/queue diagnostics

Python float arithmetic is modelled with exact rationals; the Python float
modulo x % 60 equals x - 60 * floor(x / 60) for non-negative x. -/

/-- The default timeout of _apply_metadata, 0.1 seconds per poll. -/
def pollTimeout : ℚ := 1 / 10

inductive StallAction where
  | noAction
  | warn
  | diagnostics
  | raiseStall
deriving DecidableEq

/-- What the timeout ladder does after the t-th consecutive timeout. -/
def stallAction (t : Nat) : StallAction :=
  let x : ℚ := t * pollTimeout
  if (0 ≤ x - 10 ∧ x - 10 < pollTimeout) ∨ (0 ≤ x - 30 ∧ x - 30 < pollTimeout) then
    .warn
  else if 0 ≤ x - 300 ∧ x - 300 < pollTimeout then
    .raiseStall
  else if 60 ≤ x ∧ x - 60 * ⌊x / 60⌋ < pollTimeout then
    .diagnostics
  else
    .noAction

/-- The outstanding photo paths named by the hard-failure message:
photos = photos[:10]. -/
def stallErrorPhotos (photos : List String) : List String := photos.take 10

/-! ### Identity store upsert (src/src/tlmerge/preprocess/metadata.py and
Preprocessor._apply_metadata in preprocessor.py)

A PhotoMetadata bundles the photo attribute tuple _PHOTO_ATTRIBUTES, the six
camera identity attributes _CAMERA_ATTRIBUTES and the nine lens identity
attributes _LENS_ATTRIBUTES. Floats are modelled as rationals, datetimes as
strings. get_camera_id / get_lens_id compare every attribute with SQL
equality where a None operand compiles to IS NULL, so Option equality is the
right model; matches_camera / matches_lens use Python equality
attribute-by-attribute, which is the same Option equality. -/

/-- The _PHOTO_ATTRIBUTES tuple applied by apply_photo_metadata. -/
structure PhotoAttrs where
  timeTaken : String
  fileSize : Int
  iso : Option Int
  shutterSpeed : Option String
  aperture : Option ℚ
  focalLength : Option ℚ
  autoFocus : Option Bool
  focusDistance : ℚ
  fieldOfView : ℚ
  rawWidth : Int
  rawHeight : Int
  width : Int
  height : Int
  thumbWidth : Option Int
  thumbHeight : Option Int
  captureWbRed : Option ℚ
  captureWbGreen1 : Option ℚ
  captureWbBlue : Option ℚ
  captureWbGreen2 : Option ℚ
  avgRed : ℚ
  avgGreen : ℚ
  avgBlue : ℚ
  blackLevelRed : ℚ
  blackLevelGreen1 : ℚ
  blackLevelBlue : ℚ
  blackLevelGreen2 : ℚ
  whiteLevelRed : ℚ
  whiteLevelGreen1 : ℚ
  whiteLevelBlue : ℚ
  whiteLevelGreen2 : ℚ
  brightnessMin : Int
  brightnessP10 : ℚ
  brightnessP20 : ℚ
  brightnessP30 : ℚ
  brightnessP40 : ℚ
  brightnessMedian : ℚ
  brightnessP60 : ℚ
  brightnessP70 : ℚ
  brightnessP80 : ℚ
  brightnessP90 : ℚ
  brightnessMax : Int
  brightnessMean : ℚ
  brightnessStdev : ℚ
  brightnessIqr : ℚ
  exposureDifference : Option ℚ
deriving DecidableEq

/-- The six camera identity attributes (_CAMERA_ATTRIBUTES). -/
structure CameraAttrs where
  make : String
  model : String
  daylightWbRed : Option ℚ
  daylightWbGreen1 : Option ℚ
  daylightWbBlue : Option ℚ
  daylightWbGreen2 : Option ℚ
deriving DecidableEq

/-- The nine lens identity attributes (_LENS_ATTRIBUTES). -/
structure LensAttrs where
  make : Option String
  model : Option String
  spec : Option String
  minFocalLength : ℚ
  maxFocalLength : ℚ
  lensFStops : ℚ
  maxApertureMinFocal : ℚ
  maxApertureMaxFocal : ℚ
  effectiveMaxAperture : ℚ
deriving DecidableEq

/-- The PhotoMetadata value produced by a pool worker. -/
structure PhotoMetadata where
  date : String
  group : String
  fileName : String
  attrs : PhotoAttrs
  camera : CameraAttrs
  lens : LensAttrs
deriving DecidableEq

/-- The primary key (date, group, file_name). -/
def PhotoMetadata.key (m : PhotoMetadata) : String × String × String :=
  (m.date, m.group, m.fileName)

/-- A Photo row: key, the attribute bundle, and the Camera/Lens links. -/
structure Photo where
  date : String
  group : String
  fileName : String
  attrs : PhotoAttrs
  cameraId : Nat
  lensId : Nat
deriving DecidableEq

def Photo.key (p : Photo) : String × String × String :=
  (p.date, p.group, p.fileName)

/-- The database state seen by the orchestrator: the three tables, plus the
autoincrement counters for the Camera and Lens primary keys. -/
structure DBState where
  photos : List Photo
  cameras : List (Nat × CameraAttrs)
  lenses : List (Nat × LensAttrs)
  nextCameraId : Nat
  nextLensId : Nat
deriving DecidableEq

def emptyDB : DBState :=
  { photos := [], cameras := [], lenses := [], nextCameraId := 0, nextLensId := 0 }

/-- session.get(Photo, (date, group, file_name)). -/
def findPhoto (db : DBState) (k : String × String × String) : Option Photo :=
  db.photos.find? (fun p => p.key = k)

/-- PhotoMetadata.get_camera_id: the id of the Camera row matching all six
identity attributes (None matching None), or None. -/
def getCameraId (db : DBState) (c : CameraAttrs) : Option Nat :=
  (db.cameras.find? (fun r => r.2 = c)).map (fun r => r.1)

/-- PhotoMetadata.get_lens_id over the nine lens attributes. -/
def getLensId (db : DBState) (l : LensAttrs) : Option Nat :=
  (db.lenses.find? (fun r => r.2 = l)).map (fun r => r.1)

/-- Load the Camera row linked by a photo (db_photo.camera). -/
def lookupCamera (db : DBState) (i : Nat) : Option CameraAttrs :=
  (db.cameras.find? (fun r => r.1 = i)).map (fun r => r.2)

/-- Load the Lens row linked by a photo (db_photo.lens). -/
def lookupLens (db : DBState) (i : Nat) : Option LensAttrs :=
  (db.lenses.find? (fun r => r.1 = i)).map (fun r => r.2)

/-- Resolve the Camera for a new Photo: use get_camera_id when a matching row
exists, otherwise create_camera (the new row is flushed together with the
photo, so later photos can find it). Returns the new state and the linked
camera id. -/
def resolveCamera (db : DBState) (c : CameraAttrs) : DBState × Nat :=
  match getCameraId db c with
  | some cid => (db, cid)
  | none =>
    ({ db with cameras := db.cameras ++ [(db.nextCameraId, c)],
               nextCameraId := db.nextCameraId + 1 }, db.nextCameraId)

def resolveLens (db : DBState) (l : LensAttrs) : DBState × Nat :=
  match getLensId db l with
  | some lid => (db, lid)
  | none =>
    ({ db with lenses := db.lenses ++ [(db.nextLensId, l)],
               nextLensId := db.nextLensId + 1 }, db.nextLensId)

/-- For an existing Photo: keep the linked Camera when matches_camera holds,
otherwise create a brand new row and relink (existing rows are never
mutated, as other photos may reference them). -/
def renewCamera (db : DBState) (p : Photo) (c : CameraAttrs) : DBState × Nat :=
  if lookupCamera db p.cameraId = some c then (db, p.cameraId)
  else
    ({ db with cameras := db.cameras ++ [(db.nextCameraId, c)],
               nextCameraId := db.nextCameraId + 1 }, db.nextCameraId)

def renewLens (db : DBState) (p : Photo) (l : LensAttrs) : DBState × Nat :=
  if lookupLens db p.lensId = some l then (db, p.lensId)
  else
    ({ db with lenses := db.lenses ++ [(db.nextLensId, l)],
               nextLensId := db.nextLensId + 1 }, db.nextLensId)

structure ApplyResult where
  db : DBState
  isNew : Bool
  isUpdated : Bool
deriving DecidableEq

/-- The Photo row constructed for a key not yet in the database. -/
def newPhotoRow (m : PhotoMetadata) (cameraId lensId : Nat) : Photo :=
  { date := m.date, group := m.group, fileName := m.fileName,
    attrs := m.attrs, cameraId := cameraId, lensId := lensId }

/-- The database portion of Preprocessor._apply_metadata for one metadata
record: look the Photo up by key; when absent, build a new row, resolve
Camera and Lens by identity lookup (creating rows when absent) and insert;
when present, overwrite the photo fields, re-check the linked Camera/Lens
with matches_camera / matches_lens and relink to brand-new rows when they
no longer match. isUpdated models session.is_modified: whether the row
effectively changed. Changes are flushed after every photo. -/
def applyMetadata (db : DBState) (m : PhotoMetadata) : ApplyResult :=
  match findPhoto db m.key with
  | none =>
    let r1 := resolveCamera db m.camera
    let r2 := resolveLens r1.1 m.lens
    { db := { r2.1 with photos := r2.1.photos ++ [newPhotoRow m r1.2 r2.2] },
      isNew := true, isUpdated := false }
  | some p =>
    let r1 := renewCamera db p m.camera
    let r2 := renewLens r1.1 p m.lens
    let p1 : Photo := { p with attrs := m.attrs, cameraId := r1.2, lensId := r2.2 }
    { db := { r2.1 with photos := r2.1.photos.map (fun q => if q.key = m.key then p1 else q) },
      isNew := false, isUpdated := decide (¬ p1 = p) }

/-- One full preprocessing pass over the scanned metadata, returning the
final database state and the counts of new and updated rows. -/
def runPreprocess (db : DBState) : List PhotoMetadata → DBState × Nat × Nat
  | [] => (db, 0, 0)
  | m :: ms =>
    let r := applyMetadata db m
    let rest := runPreprocess r.db ms
    (rest.1, (if r.isNew then 1 else 0) + rest.2.1,
      (if r.isUpdated then 1 else 0) + rest.2.2)

/-- The database is consistent with a metadata record: the photo row exists,
carries exactly the metadata attributes, and its linked Camera and Lens rows
match the metadata identity attributes. -/
def Consistent (db : DBState) (m : PhotoMetadata) : Prop :=
  ∃ p : Photo, findPhoto db m.key = some p ∧ p.attrs = m.attrs ∧
    lookupCamera db p.cameraId = some m.camera ∧
    lookupLens db p.lensId = some m.lens

/-- Schema-level well-formedness: unique photo keys, unique Camera/Lens ids
below the autoincrement counters, and the composite unique constraint over
the identity attribute tuples. -/
structure GoodDB (db : DBState) : Prop where
  photoKeys : (db.photos.map Photo.key).Nodup
  camIds : (db.cameras.map Prod.fst).Nodup
  camBound : ∀ r ∈ db.cameras, r.1 < db.nextCameraId
  camAttrs : (db.cameras.map Prod.snd).Nodup
  lensIds : (db.lenses.map Prod.fst).Nodup
  lensBound : ∀ r ∈ db.lenses, r.1 < db.nextLensId
  lensAttrs : (db.lenses.map Prod.snd).Nodup

/-- The shape every record of the tree keeps: the root has no parent, a date
config is a child of the root, and a group config is a child of a date
config. -/
def ChainProp (nodes : List ConfigNode) (n : ConfigNode) : Prop :=
  (n.kind = .root ∧ n.parent = none) ∨
  (n.kind = .date ∧ ∃ pn ∈ nodes, n.parent = some pn.id ∧ pn.kind = .root) ∨
  (n.kind = .group ∧ ∃ pn ∈ nodes, n.parent = some pn.id ∧ pn.kind = .date)

/-- Well-formedness of the manager state: ids are fresh and unique, and every
record satisfies ChainProp. -/
def ManagerInv (m : ConfigManager) : Prop :=
  (∀ n ∈ m.nodes, n.id < m.nextId) ∧
  (m.nodes.map ConfigNode.id).Nodup ∧
  (∀ n ∈ m.nodes, ChainProp m.nodes n)

/-- A concrete photo attribute bundle, standing for the values extracted
from one RAW file of the demo project. -/
def demoPhotoAttrs : PhotoAttrs :=
  { timeTaken := "2024-01-01 10:00:00", fileSize := 24000000,
    iso := some 100, shutterSpeed := some "1/250", aperture := some 4,
    focalLength := some 50, autoFocus := some true, focusDistance := 3,
    fieldOfView := 40, rawWidth := 6000, rawHeight := 4000,
    width := 5984, height := 3990, thumbWidth := some 160,
    thumbHeight := some 120, captureWbRed := some 2, captureWbGreen1 := some 1,
    captureWbBlue := some (3/2), captureWbGreen2 := some 1, avgRed := 100,
    avgGreen := 110, avgBlue := 90, blackLevelRed := 512,
    blackLevelGreen1 := 512, blackLevelBlue := 512, blackLevelGreen2 := 512,
    whiteLevelRed := 16383, whiteLevelGreen1 := 16383, whiteLevelBlue := 16383,
    whiteLevelGreen2 := 16383, brightnessMin := 0, brightnessP10 := 20,
    brightnessP20 := 40, brightnessP30 := 60, brightnessP40 := 80,
    brightnessMedian := 100, brightnessP60 := 120, brightnessP70 := 140,
    brightnessP80 := 160, brightnessP90 := 180, brightnessMax := 255,
    brightnessMean := 101, brightnessStdev := 55, brightnessIqr := 120,
    exposureDifference := some (-1/3) }

/-- A concrete camera identity tuple. -/
def demoCameraAttrs : CameraAttrs :=
  { make := "Nikon", model := "Z6", daylightWbRed := some 2,
    daylightWbGreen1 := some 1, daylightWbBlue := some (3/2),
    daylightWbGreen2 := none }

/-- A concrete lens identity tuple. -/
def demoLensAttrs : LensAttrs :=
  { make := some "Nikon", model := none, spec := some "24-70mm f/4",
    minFocalLength := 24, maxFocalLength := 70, lensFStops := 6,
    maxApertureMinFocal := 4, maxApertureMaxFocal := 4,
    effectiveMaxAperture := 4 }

/-- One scanned metadata record of the demo project. -/
def demoMetadata : PhotoMetadata :=
  { date := "2024-01-01", group := "a", fileName := "0001.nef",
    attrs := demoPhotoAttrs, camera := demoCameraAttrs, lens := demoLensAttrs }

end Tlmerge

namespace Tlmerge

/-! ## Theorems -/

/-- C6: The CLI sample validation accepts "N" and "~N" for positive N and
rejects zero, floats and negatives other than -1; but contrary to the claim,
the value "~-1" is ACCEPTED: the source compares the tilde-stripped string
p = "-1" against the literal "~-1", a comparison that can never be true, so
the explicit rejection is dead code. -/
theorem claim_C6_sample_tilde_minus_one_accepted :
    validateSample "~-1" = true ∧
    validateSample "-1" = true ∧
    validateSample "5" = true ∧
    validateSample "~5" = true ∧
    validateSample "0" = false ∧
    validateSample "~0" = false ∧
    validateSample "1.5" = false ∧
    validateSample "-2" = false ∧
    validateSample "~-2" = false := by
  decide

/-- C8: the CLI layer accepts --max_processing_errors=0 (it only exits on
negative values, and its help text documents 0 as halting on the first task
failure), but the config setter that the value is then applied to requires
at least 1, so the documented value 0 is rejected downstream. -/
theorem claim_C8_zero_error_budget_rejected_by_setter :
    validateMaxProcessingErrors 0 = true ∧
    setMaxProcessingErrorsAccepts 0 = false ∧
    (∀ n : Int, n < 0 → validateMaxProcessingErrors n = false) ∧
    validateMaxProcessingErrors 1 = true ∧ setMaxProcessingErrorsAccepts 1 = true := by
  refine ⟨by decide, by decide, ?_, by decide, by decide⟩
  intro n hn
  simp [validateMaxProcessingErrors, hn]

/-- C8 witness: the universally quantified conjunct applied at n = -1. -/
theorem claim_C8_zero_error_budget_rejected_by_setter_witness :
    validateMaxProcessingErrors (-1) = false :=
  claim_C8_zero_error_budget_rejected_by_setter.2.2.1 (-1) (by decide)

/-- Helper: a window condition 0 <= t * timeout - a < timeout singles out the
unique iteration t = 10 * a. -/
theorem stall_window_iff (t m : Nat) (a : ℚ) (ha : a = (m : ℚ)) :
    (0 ≤ (t : ℚ) * pollTimeout - a ∧ (t : ℚ) * pollTimeout - a < pollTimeout)
      ↔ t = 10 * m := by
  subst ha
  unfold pollTimeout
  rw [sub_nonneg, sub_lt_iff_lt_add]
  constructor
  · rintro ⟨h1, h2⟩
    have h1q : (10 * m : ℚ) ≤ (t : ℚ) := by linarith
    have h2q : (t : ℚ) < (10 * m : ℚ) + 1 := by linarith
    have hh1 : 10 * m ≤ t := by exact_mod_cast h1q
    have hh2 : t < 10 * m + 1 := by exact_mod_cast h2q
    omega
  · rintro rfl
    push_cast
    constructor
    · linarith
    · linarith

/-- Helper: the modulo condition of the diagnostics branch singles out the
multiples of 60 seconds, i.e. iterations t with 600 | t and t >= 600. -/
theorem stall_mod_iff (t : Nat) :
    (60 ≤ (t : ℚ) * pollTimeout ∧
      (t : ℚ) * pollTimeout - 60 * (⌊(t : ℚ) * pollTimeout / 60⌋ : ℚ) < pollTimeout)
      ↔ (600 ≤ t ∧ t % 600 = 0) := by
  have hq : (t : ℚ) * pollTimeout / 60 = (t : ℚ) / ((600 : ℕ) : ℚ) := by
    unfold pollTimeout
    push_cast
    ring
  have hfloor : (⌊(t : ℚ) * pollTimeout / 60⌋ : ℚ) = ((t / 600 : ℕ) : ℚ) := by
    rw [hq, Rat.floor_natCast_div_natCast, ← Int.natCast_div]
    norm_cast
  have ht : (t : ℚ) = 600 * ((t / 600 : ℕ) : ℚ) + ((t % 600 : ℕ) : ℚ) := by
    have h := Nat.div_add_mod t 600
    exact_mod_cast h.symm
  rw [hfloor]
  unfold pollTimeout
  constructor
  · rintro ⟨h1, h2⟩
    rw [ht] at h1 h2
    have hr1 : ((t % 600 : ℕ) : ℚ) < 1 := by linarith
    have hr0 : t % 600 = 0 := by
      have h1n : t % 600 < 1 := by exact_mod_cast hr1
      omega
    refine ⟨?_, hr0⟩
    have h600 : (600 : ℚ) ≤ (t : ℚ) := by
      rw [ht]
      linarith
    exact_mod_cast h600
  · rintro ⟨h6, hr0⟩
    have hq1 : 1 ≤ t / 600 := by omega
    have hq1q : (1 : ℚ) ≤ ((t / 600 : ℕ) : ℚ) := by exact_mod_cast hq1
    have hr0q : ((t % 600 : ℕ) : ℚ) = 0 := by
      rw [hr0]
      norm_num
    rw [ht, hr0q]
    constructor
    · linarith
    · linarith

/-- C9: with the 0.1 second poll timeout, the consecutive-timeout ladder
warns exactly at iterations 100 and 300 (10 and 30 seconds), logs pool and
queue diagnostics exactly at 600, 1200, 1800 and 2400 (60, 120, 180 and 240
seconds), and raises the hard RuntimeError exactly at iteration 3000 (5
minutes); its message names at most 10 of the still-enqueued photo paths,
all of them outstanding ones. Iterations beyond 3000 cannot occur because
the counter resets on success and iteration 3000 raises. -/
theorem claim_C9_stall_ladder (t : Nat) (ht1 : 1 ≤ t) (ht2 : t ≤ 3000) :
    (stallAction t = .warn ↔ (t = 100 ∨ t = 300)) ∧
    (stallAction t = .raiseStall ↔ t = 3000) ∧
    (stallAction t = .diagnostics ↔ (t = 600 ∨ t = 1200 ∨ t = 1800 ∨ t = 2400)) ∧
    (∀ photos : List String, (stallErrorPhotos photos).length ≤ 10 ∧
      ∀ p ∈ stallErrorPhotos photos, p ∈ photos) := by
  have photosPart : ∀ photos : List String,
      (stallErrorPhotos photos).length ≤ 10 ∧
        ∀ p ∈ stallErrorPhotos photos, p ∈ photos := by
    intro photos
    constructor
    · simp [stallErrorPhotos]
    · intro p hp
      exact List.take_subset 10 photos hp
  have key : stallAction t
      = (if t = 100 ∨ t = 300 then StallAction.warn
         else if t = 3000 then StallAction.raiseStall
         else if 600 ≤ t ∧ t % 600 = 0 then StallAction.diagnostics
         else StallAction.noAction) := by
    have c1 : ((0 ≤ (t : ℚ) * pollTimeout - 10 ∧ (t : ℚ) * pollTimeout - 10 < pollTimeout) ∨
        (0 ≤ (t : ℚ) * pollTimeout - 30 ∧ (t : ℚ) * pollTimeout - 30 < pollTimeout))
        ↔ (t = 100 ∨ t = 300) :=
      (or_congr (stall_window_iff t 10 10 (by norm_num))
        (stall_window_iff t 30 30 (by norm_num))).trans (by omega)
    have c2 : (0 ≤ (t : ℚ) * pollTimeout - 300 ∧ (t : ℚ) * pollTimeout - 300 < pollTimeout)
        ↔ t = 3000 :=
      (stall_window_iff t 300 300 (by norm_num)).trans (by omega)
    simp only [stallAction]
    rw [if_congr c1 rfl (if_congr c2 rfl (if_congr (stall_mod_iff t) rfl rfl))]
  rw [key]
  by_cases hA : t = 100 ∨ t = 300
  · rw [if_pos hA]
    refine ⟨⟨fun _ => hA, fun _ => rfl⟩, ⟨fun h => absurd h (by simp), ?_⟩,
      ⟨fun h => absurd h (by simp), ?_⟩, photosPart⟩
    · intro h3
      exfalso
      rcases hA with rfl | rfl <;> omega
    · intro hd
      exfalso
      rcases hA with rfl | rfl <;> rcases hd with h | h | h | h <;> omega
  · rw [if_neg hA]
    by_cases hB : t = 3000
    · rw [if_pos hB]
      refine ⟨⟨fun h => absurd h (by simp), fun h => absurd h hA⟩,
        ⟨fun _ => hB, fun _ => rfl⟩,
        ⟨fun h => absurd h (by simp), ?_⟩, photosPart⟩
      intro hd
      exfalso
      rcases hd with rfl | rfl | rfl | rfl <;> omega
    · rw [if_neg hB]
      by_cases hC : 600 ≤ t ∧ t % 600 = 0
      · rw [if_pos hC]
        refine ⟨⟨fun h => absurd h (by simp), fun h => absurd h hA⟩,
          ⟨fun h => absurd h (by simp), fun h => absurd h hB⟩,
          ⟨fun _ => ?_, fun _ => rfl⟩, photosPart⟩
        obtain ⟨hc1, hc2⟩ := hC
        omega
      · rw [if_neg hC]
        refine ⟨⟨fun h => absurd h (by simp), fun h => absurd h hA⟩,
          ⟨fun h => absurd h (by simp), fun h => absurd h hB⟩,
          ⟨fun h => absurd h (by simp), ?_⟩, photosPart⟩
        intro hd
        exact absurd (by rcases hd with rfl | rfl | rfl | rfl <;> omega) hC

/-- C9 witness: the ladder theorem applied at iteration 600 (the 60-second
diagnostics point). -/
theorem claim_C9_stall_ladder_witness :
    (stallAction 600 = .warn ↔ ((600 : Nat) = 100 ∨ (600 : Nat) = 300)) ∧
    (stallAction 600 = .raiseStall ↔ (600 : Nat) = 3000) ∧
    (stallAction 600 = .diagnostics ↔
      ((600 : Nat) = 600 ∨ (600 : Nat) = 1200 ∨ (600 : Nat) = 1800 ∨ (600 : Nat) = 2400)) ∧
    (∀ photos : List String, (stallErrorPhotos photos).length ≤ 10 ∧
      ∀ p ∈ stallErrorPhotos photos, p ∈ photos) :=
  claim_C9_stall_ladder 600 (by omega) (by omega)

/-- C7 counterexample: with the configured worker count W = 5 and sampling
disabled (s_size = -1, so S + 1 = 0), the claim formula (middle branch taken
when 0 ≤ S+1 < W) yields 0 total workers, while the source keeps W = 5 and
gives the pool 4 workers. -/
theorem claim_C7_counterexample :
    determineTotalWorkers 5 (-1) = 5 ∧
    claimTotalWorkers 5 (-1) = 0 ∧
    determineTotalWorkers 5 (-1) ≠ claimTotalWorkers 5 (-1) ∧
    determinePoolWorkerCount 5 (-1) = 4 := by
  decide

/-- Helper: with unique ids, looking a member up by its id finds it. -/
theorem find?_id_eq_some {nodes : List ConfigNode}
    (hnd : (nodes.map ConfigNode.id).Nodup) {n : ConfigNode} (hn : n ∈ nodes) :
    nodes.find? (fun x => x.id = n.id) = some n := by
  cases h : nodes.find? (fun x => x.id = n.id) with
  | none =>
    have := List.find?_eq_none.mp h n hn
    simp at this
  | some n' =>
    have hmem : n' ∈ nodes := List.mem_of_find?_eq_some h
    have hpred := List.find?_some h
    have hid : n'.id = n.id := by simpa using hpred
    have heq : n' = n := List.inj_on_of_nodup_map hnd hmem hn hid
    rw [heq]

/-- Helper: ChainProp survives appending records. -/
theorem chainProp_append {nodes extra : List ConfigNode} {n : ConfigNode}
    (h : ChainProp nodes n) : ChainProp (nodes ++ extra) n := by
  rcases h with h | ⟨hk, pn, hm, hp, hpk⟩ | ⟨hk, pn, hm, hp, hpk⟩
  · exact Or.inl h
  · exact Or.inr (Or.inl ⟨hk, pn, List.mem_append_left _ hm, hp, hpk⟩)
  · exact Or.inr (Or.inr ⟨hk, pn, List.mem_append_left _ hm, hp, hpk⟩)

/-- Helper: _make_child preserves the manager invariant. -/
theorem makeChildOf_inv {m : ConfigManager} {pid : Nat} {m1 : ConfigManager}
    {cid : Nat} (hinv : ManagerInv m) (h : m.makeChildOf pid = .ok (m1, cid)) :
    ManagerInv m1 := by
  obtain ⟨hb, hnd, hchain⟩ := hinv
  unfold ConfigManager.makeChildOf at h
  split at h
  · exact absurd h (by simp)
  · rename_i pn hf
    unfold ConfigManager.findNode at hf
    have hpmem : pn ∈ m.nodes := List.mem_of_find?_eq_some hf
    have hpid : pn.id = pid := by simpa using List.find?_some hf
    split at h
    · exact absurd h (by simp)
    · rename_i k hk
      rw [Except.ok.injEq, Prod.mk.injEq] at h
      obtain ⟨hm1, hcid⟩ := h
      rw [← hm1]
      refine ⟨?_, ?_, ?_⟩
      · intro n hn
        rcases List.mem_append.mp hn with hn | hn
        · exact Nat.lt_succ_of_lt (hb n hn)
        · simp at hn
          rw [hn]
          exact Nat.lt_succ_self _
      · show ((m.nodes ++ [_]).map ConfigNode.id).Nodup
        rw [List.map_append, List.nodup_append]
        refine ⟨hnd, by simp, ?_⟩
        intro a ha hb2
        simp at hb2
        simp only [List.mem_map] at ha
        obtain ⟨x, hx, rfl⟩ := ha
        exact absurd hb2 (Nat.ne_of_lt (hb x hx))
      · intro n hn
        rcases List.mem_append.mp hn with hn | hn
        · exact chainProp_append (hchain n hn)
        · simp at hn
          rw [hn]
          cases hpk : pn.kind with
          | root =>
            rw [hpk] at hk
            have hkd : k = .date := by
              simpa [childKind] using hk.symm
            refine Or.inr (Or.inl ⟨hkd, pn, List.mem_append_left _ hpmem, ?_, hpk⟩)
            rw [hpid]
          | date =>
            rw [hpk] at hk
            have hkg : k = .group := by
              simpa [childKind] using hk.symm
            refine Or.inr (Or.inr ⟨hkg, pn, List.mem_append_left _ hpmem, ?_, hpk⟩)
            rw [hpid]
          | group =>
            rw [hpk] at hk
            exact absurd hk (by simp [childKind])

/-- Helper: new_date preserves the manager invariant. -/
theorem newDate_inv {fmtOk : String → Bool} {m : ConfigManager} {dateDir : String}
    {m1 : ConfigManager} {cid : Nat} (hinv : ManagerInv m)
    (h : m.newDate fmtOk dateDir = .ok (m1, cid)) : ManagerInv m1 := by
  unfold ConfigManager.newDate at h
  split at h
  · split at h
    · exact absurd h (by simp)
    · rename_i m2 cid2 hmc
      have h2 := makeChildOf_inv hinv hmc
      rw [Except.ok.injEq, Prod.mk.injEq] at h
      obtain ⟨h1, _⟩ := h
      rw [← h1]
      exact h2
  · exact absurd h (by simp)

/-- Helper: new_group preserves the manager invariant. -/
theorem newGroup_inv {fmtOk : String → Bool} {m : ConfigManager}
    {dateDir groupDir : String} {m1 : ConfigManager} {cid : Nat}
    (hinv : ManagerInv m)
    (h : m.newGroup fmtOk dateDir groupDir = .ok (m1, cid)) : ManagerInv m1 := by
  unfold ConfigManager.newGroup at h
  have step :
      ∀ md : ConfigManager, ManagerInv md → ∀ did : Nat,
        (match md.makeChildOf did with
          | .error e => Except.error e
          | .ok (m2, gid) =>
            Except.ok ({ m2 with entries := m2.entries ++ [((dateDir, some groupDir), gid)] }, gid))
          = Except.ok (m1, cid) → ManagerInv m1 := by
    intro md hmd did hh
    split at hh
    · exact absurd hh (by simp)
    · rename_i m2 gid hmc
      have h2 := makeChildOf_inv hmd hmc
      rw [Except.ok.injEq, Prod.mk.injEq] at hh
      obtain ⟨h1, _⟩ := hh
      rw [← h1]
      exact h2
  split at h
  · rename_i did hle
    exact step m hinv did h
  · rename_i hle
    dsimp only at h
    split at h
    · exact absurd h (by simp)
    · rename_i md did hres
      exact step md (newDate_inv hinv hres) did h

/-- Helper: one manager operation preserves the invariant. -/
theorem applyConfigOp_inv (fmtOk : String → Bool) (op : ConfigOp)
    {m : ConfigManager} (hinv : ManagerInv m) :
    ManagerInv (applyConfigOp fmtOk m op) := by
  cases op with
  | newDate d =>
    dsimp only [applyConfigOp]
    split
    · rename_i m1 cid h
      exact newDate_inv hinv h
    · exact hinv
  | newGroup d g =>
    dsimp only [applyConfigOp]
    split
    · rename_i m1 cid h
      exact newGroup_inv hinv h
    · exact hinv

/-- Helper: the empty manager satisfies the invariant. -/
theorem emptyManager_inv : ManagerInv emptyManager := by
  refine ⟨?_, ?_, ?_⟩
  · intro n hn
    simp [emptyManager] at hn
    rw [hn]
    decide
  · simp [emptyManager]
  · intro n hn
    simp [emptyManager] at hn
    rw [hn]
    exact Or.inl ⟨rfl, rfl⟩

/-- Helper: every reachable manager state satisfies the invariant. -/
theorem applyConfigOps_inv (fmtOk : String → Bool) (ops : List ConfigOp) :
    ManagerInv (applyConfigOps fmtOk ops) := by
  unfold applyConfigOps
  have : ∀ (l : List ConfigOp) (m : ConfigManager), ManagerInv m →
      ManagerInv (l.foldl (applyConfigOp fmtOk) m) := by
    intro l
    induction l with
    | nil => intro m hm; exact hm
    | cons op rest ih =>
      intro m hm
      exact ih _ (applyConfigOp_inv fmtOk op hm)
  exact this ops emptyManager emptyManager_inv

/-- Helper: under the invariant, every record sits at depth at most 3. -/
theorem depth_le_three {m : ConfigManager} (hinv : ManagerInv m)
    {n : ConfigNode} (hn : n ∈ m.nodes) :
    ∀ fuel, 3 ≤ fuel → depthFrom m.nodes fuel n.id ≤ 3 := by
  obtain ⟨hb, hnd, hchain⟩ := hinv
  intro fuel hfuel
  obtain ⟨f1, rfl⟩ : ∃ f1, fuel = f1 + 1 := ⟨fuel - 1, by omega⟩
  have hf1 : 2 ≤ f1 := by omega
  obtain ⟨f2, rfl⟩ : ∃ f2, f1 = f2 + 1 := ⟨f1 - 1, by omega⟩
  have hf2 : 1 ≤ f2 := by omega
  obtain ⟨f3, rfl⟩ : ∃ f3, f2 = f3 + 1 := ⟨f2 - 1, by omega⟩
  rcases hchain n hn with ⟨hk, hp⟩ | ⟨hk, pn, hm, hp, hpk⟩ | ⟨hk, pn, hm, hp, hpk⟩
  · simp only [depthFrom, find?_id_eq_some hnd hn, hp]
    omega
  · simp only [depthFrom, find?_id_eq_some hnd hn, hp, find?_id_eq_some hnd hm]
    rcases hchain pn hm with ⟨hk2, hp2⟩ | ⟨hk2, _⟩ | ⟨hk2, _⟩
    · simp only [hp2]
      omega
    · rw [hpk] at hk2
      exact absurd hk2 (by simp)
    · rw [hpk] at hk2
      exact absurd hk2 (by simp)
  · simp only [depthFrom, find?_id_eq_some hnd hn, hp, find?_id_eq_some hnd hm]
    rcases hchain pn hm with ⟨hk2, _⟩ | ⟨hk2, pn2, hm2, hp2, hpk2⟩ | ⟨hk2, _⟩
    · rw [hpk] at hk2
      exact absurd hk2 (by simp)
    · simp only [hp2, find?_id_eq_some hnd hm2]
      rcases hchain pn2 hm2 with ⟨hk3, hp3⟩ | ⟨hk3, _⟩ | ⟨hk3, _⟩
      · simp only [hp3]
        omega
      · rw [hpk2] at hk3
        exact absurd hk3 (by simp)
      · rw [hpk2] at hk3
        exact absurd hk3 (by simp)
    · rw [hpk] at hk2
      exact absurd hk2 (by simp)

/-- C10: for any sequence of ConfigManager operations (with any date-format
validator), every config record reachable through the manager sits at depth
at most 3 (root, date child, or group grandchild), and attempting to create
a child of any group-level record raises NotImplementedError. -/
theorem claim_C10_config_tree_three_levels (fmtOk : String → Bool)
    (ops : List ConfigOp) :
    (∀ n ∈ (applyConfigOps fmtOk ops).nodes,
      ∀ fuel, 3 ≤ fuel →
        depthFrom (applyConfigOps fmtOk ops).nodes fuel n.id ≤ 3) ∧
    (∀ n ∈ (applyConfigOps fmtOk ops).nodes, n.kind = .group →
      (applyConfigOps fmtOk ops).makeChildOf n.id = .error .notImplementedError) := by
  have hinv := applyConfigOps_inv fmtOk ops
  constructor
  · intro n hn fuel hfuel
    exact depth_le_three hinv hn fuel hfuel
  · intro n hn hk
    unfold ConfigManager.makeChildOf ConfigManager.findNode
    simp only [find?_id_eq_some hinv.2.1 hn, hk, childKind]

/-- C10 witness: the group record created by new_group("d", "a") on a fresh
manager has depth 3 and rejects child creation. -/
theorem claim_C10_config_tree_three_levels_witness :
    ({ id := 2, kind := .group, parent := some 1 } : ConfigNode)
      ∈ (applyConfigOps (fun _ => true) [.newGroup "d" "a"]).nodes ∧
    depthFrom (applyConfigOps (fun _ => true) [.newGroup "d" "a"]).nodes 3 2 ≤ 3 ∧
    (applyConfigOps (fun _ => true) [.newGroup "d" "a"]).makeChildOf 2
      = .error .notImplementedError := by
  refine ⟨by decide, ?_, ?_⟩
  · exact (claim_C10_config_tree_three_levels (fun _ => true) [.newGroup "d" "a"]).1
      { id := 2, kind := .group, parent := some 1 } (by decide) 3 (by decide)
  · exact (claim_C10_config_tree_three_levels (fun _ => true) [.newGroup "d" "a"]).2
      { id := 2, kind := .group, parent := some 1 } (by decide) (by decide)

/-- Helper: the source worker-count formula agrees with the amended one. -/
theorem totalWorkers_eq_amended (w s : Int) :
    determineTotalWorkers w s = amendedTotalWorkers w s := by
  unfold determineTotalWorkers amendedTotalWorkers
  rcases lt_or_ge w 2 with h | h
  · simp [h]
  · have h2 : ¬ w < 2 := not_lt.mpr h
    simp only [h2, if_false]
    by_cases hs : 2 ≤ s + 1 ∧ s + 1 < w
    · have hs' : 1 ≤ s ∧ s + 1 < w := ⟨by omega, hs.2⟩
      simp [hs, hs']
    · have hs' : ¬ (1 ≤ s ∧ s + 1 < w) := by
        intro hc
        exact hs ⟨by omega, hc.2⟩
      simp [hs, hs']

/-- C2: the no-handler path matches the claim (with threshold k = 1, one
failure keeps the pool running with no exception, and a second failure
finishes it with a group of exactly both errors), but with an error handler
configured that does not swallow errors, a SINGLE failure already cancels
the pool: the handler-declined error falls through to the cancel section
without being appended to the error list or compared with the threshold, so
the pool finishes with an exception group containing zero errors. -/
theorem claim_C2_handler_bypasses_error_budget :
    runTasks none (startedPool Nat 1) [.failure 7 false]
      = { errorThreshold := 1, errors := [7], exception := none, state := .running } ∧
    runTasks none (startedPool Nat 1) [.failure 7 false, .failure 8 false]
      = { errorThreshold := 1, errors := [7, 8],
          exception := some (.group 1 [7, 8]), state := .finished } ∧
    runTasks (some (fun _ => false)) (startedPool Nat 1) [.failure 7 false]
      = { errorThreshold := 1, errors := [],
          exception := some (.group 1 []), state := .finished } :=
  ⟨rfl, rfl, rfl⟩

/-- C4: set_median_filter on a parent stores the value and every existing
child returns it afterwards, but set_thumbnail_path propagates by calling
the raw set_thumbnail_location of each child with the Path object, which
raises AttributeError (Path has no attribute upper), so a child never
receives the new thumbnail path. -/
theorem claim_C4_thumbnail_path_propagation_bug :
    (setMedianFilterAll { own := demoBaseConfig, children := [demoBaseConfig] } 3).own.medianFilter = 3 ∧
    ((setMedianFilterAll { own := demoBaseConfig, children := [demoBaseConfig] } 3).children.map
      BaseConfig.medianFilter) = [3] ∧
    setThumbnailPathAll { own := demoBaseConfig, children := [demoBaseConfig] } "previews"
      = .error .attributeError :=
  ⟨rfl, rfl, rfl⟩

/-- Helper: reading the modified index gives the modified element. -/
theorem modifyAt_getElem?_self {α : Type} (l : List α) (i : Nat) (f : α → α) :
    (modifyAt l i f)[i]? = l[i]?.map f := by
  induction l generalizing i with
  | nil => cases i <;> rfl
  | cons x xs ih =>
    cases i with
    | zero => simp [modifyAt]
    | succ n => simpa [modifyAt] using ih n

/-- Helper: a root-level set_white_balance reaches every grandchild. -/
theorem groupWhiteBalance_setWhiteBalance (r : RootConfig) (i j : Nat)
    (w : WhiteBalance) (d : DateConfig) (hd : r.children[i]? = some d)
    (g : GroupConfig) (hg : d.children[j]? = some g) :
    groupWhiteBalance (r.setWhiteBalance w) i j = some w := by
  unfold groupWhiteBalance RootConfig.setWhiteBalance
  simp only [List.getElem?_map, hd, Option.map_some', Option.some_bind]
  unfold DateConfig.setWhiteBalance
  simp only [List.getElem?_map, hg, Option.map_some']
  rfl

/-- C5 counterexample: in a tree with one date and one group, overriding the
group white balance and then resetting the root leaves the group with the
root value, not the override. -/
theorem claim_C5_counterexample :
    groupWhiteBalance
      ((demoRoot.setGroupWhiteBalance 0 0 (.mults 2 1 2 1)).setWhiteBalance .default)
      0 0 ≠ some (.mults 2 1 2 1) ∧
    groupWhiteBalance
      ((demoRoot.setGroupWhiteBalance 0 0 (.mults 2 1 2 1)).setWhiteBalance .default)
      0 0 = some .default := by
  decide

/-- C5 amended: a group override takes effect when set, but it survives only
until the next root-level set of the same option: setting the option on the
root afterwards propagates to every descendant, so the group getter returns
the new root value. -/
theorem claim_C5_root_set_wins_over_group_override (r : RootConfig) (i j : Nat)
    (v w : WhiteBalance) (d : DateConfig) (hd : r.children[i]? = some d)
    (g : GroupConfig) (hg : d.children[j]? = some g) :
    groupWhiteBalance (r.setGroupWhiteBalance i j v) i j = some v ∧
    groupWhiteBalance ((r.setGroupWhiteBalance i j v).setWhiteBalance w) i j = some w := by
  have hd1 : (r.setGroupWhiteBalance i j v).children[i]?
      = some { d with children := modifyAt d.children j (fun g => g.setWhiteBalance v) } := by
    show (modifyAt r.children i _)[i]? = _
    rw [modifyAt_getElem?_self, hd]
    rfl
  have hg1 : (modifyAt d.children j (fun g => g.setWhiteBalance v))[j]?
      = some (g.setWhiteBalance v) := by
    rw [modifyAt_getElem?_self, hg]
    rfl
  constructor
  · unfold groupWhiteBalance
    rw [hd1]
    simp only [Option.some_bind, hg1, Option.map_some']
    rfl
  · exact groupWhiteBalance_setWhiteBalance _ i j w _ hd1 _ hg1

/-- C3: on a project with one date whose single group holds two valid photos,
a random sample of size 2 yields only ONE photo: once the date generator is
exhausted the loop breaks outright, abandoning the still-open date (second
conjunct pins the second bug of the same loop: when a date moves past an
exhausted group, next_photo calls the keyword-only iter_photos positionally
and raises TypeError). With the two photos in two separate dates the sample
of 2 is reached, matching the claim only in that layout. -/
theorem claim_C3_random_sample_stops_short :
    iterPhotosRandom [[["p1", "p2"]]] 2 10 = .ok ["p1"] ∧
    iterPhotosRandom [[[], ["p2"]]] 1 10 = .error .typeError ∧
    iterPhotosRandom [[["p1"]], [["p2"]]] 2 10 = .ok ["p1", "p2"] :=
  ⟨rfl, rfl, rfl⟩

/-- C5 witness: the amended theorem applied to the concrete demo tree. -/
theorem claim_C5_root_set_wins_over_group_override_witness :
    groupWhiteBalance (demoRoot.setGroupWhiteBalance 0 0 (.mults 2 1 2 1)) 0 0
      = some (.mults 2 1 2 1) ∧
    groupWhiteBalance ((demoRoot.setGroupWhiteBalance 0 0 (.mults 2 1 2 1)).setWhiteBalance
      .camera) 0 0 = some .camera :=
  claim_C5_root_set_wins_over_group_override demoRoot 0 0 (.mults 2 1 2 1) .camera
    _ (by rfl) _ (by rfl)

/-- C7 amended: the orchestrator total worker count is 2 if W < 2; else S+1
if 2 ≤ S+1 < W (that is, a sample of size S ≥ 1 with S+1 < W); else W; and
the photo worker pool is created with one fewer worker than that total. -/
theorem claim_C7_worker_count :
    ∀ cfgWorkers sSize : Int,
      determineTotalWorkers cfgWorkers sSize = amendedTotalWorkers cfgWorkers sSize ∧
      determinePoolWorkerCount cfgWorkers sSize =
        amendedTotalWorkers cfgWorkers sSize - 1 := by
  intro w s
  refine ⟨totalWorkers_eq_amended w s, ?_⟩
  unfold determinePoolWorkerCount
  rw [totalWorkers_eq_amended w s]

/-! ### Lemmas for the identity store upsert (claim C1) -/

/-- Helper: when the image of f over l has no duplicates, searching l for the
image of a member finds that member. -/
theorem find?_of_nodup_map {α β : Type} [DecidableEq β] (f : α → β) {l : List α}
    (hnd : (l.map f).Nodup) {a : α} (ha : a ∈ l) :
    l.find? (fun x => f x = f a) = some a := by
  cases h : l.find? (fun x => f x = f a) with
  | none =>
    have := List.find?_eq_none.mp h a ha
    simp at this
  | some b =>
    have hmem : b ∈ l := List.mem_of_find?_eq_some h
    have hfb : f b = f a := by simpa using List.find?_some h
    rw [List.inj_on_of_nodup_map hnd hmem ha hfb]

/-- Helper: id search in a table with unique ids finds the member row. -/
theorem find?_pair_fst {β : Type} [DecidableEq β] {l : List (Nat × β)}
    (hnd : (l.map Prod.fst).Nodup) {i : Nat} {b : β} (hmem : (i, b) ∈ l) :
    l.find? (fun r => r.1 = i) = some (i, b) := by
  have := find?_of_nodup_map Prod.fst hnd hmem
  simpa using this

/-- Helper: attribute search in a table with unique attribute tuples finds
the member row. -/
theorem find?_pair_snd {β : Type} [DecidableEq β] {l : List (Nat × β)}
    (hnd : (l.map Prod.snd).Nodup) {i : Nat} {b : β} (hmem : (i, b) ∈ l) :
    l.find? (fun r => r.2 = b) = some (i, b) := by
  have := find?_of_nodup_map Prod.snd hnd hmem
  simpa using this

/-- Helper: a successful id lookup exhibits a member row. -/
theorem lookupCamera_mem {db : DBState} {i : Nat} {c : CameraAttrs}
    (h : lookupCamera db i = some c) : (i, c) ∈ db.cameras := by
  unfold lookupCamera at h
  cases hf : db.cameras.find? (fun r => r.1 = i) with
  | none => rw [hf] at h; simp at h
  | some r =>
    rw [hf] at h
    have hr2 : r.2 = c := by simpa using h
    have hr1 : r.1 = i := by simpa using List.find?_some hf
    have hmem := List.mem_of_find?_eq_some hf
    have : r = (i, c) := by
      cases r
      simp at hr1 hr2
      rw [hr1, hr2]
    rw [← this]
    exact hmem

/-- Helper: a successful lens id lookup exhibits a member row. -/
theorem lookupLens_mem {db : DBState} {i : Nat} {l : LensAttrs}
    (h : lookupLens db i = some l) : (i, l) ∈ db.lenses := by
  unfold lookupLens at h
  cases hf : db.lenses.find? (fun r => r.1 = i) with
  | none => rw [hf] at h; simp at h
  | some r =>
    rw [hf] at h
    have hr2 : r.2 = l := by simpa using h
    have hr1 : r.1 = i := by simpa using List.find?_some hf
    have hmem := List.mem_of_find?_eq_some hf
    have : r = (i, l) := by
      cases r
      simp at hr1 hr2
      rw [hr1, hr2]
    rw [← this]
    exact hmem

/-- Helper: everything the new-photo camera resolution guarantees. -/
theorem resolveCamera_spec (db : DBState) (c : CameraAttrs) (hg : GoodDB db) :
    (resolveCamera db c).1.photos = db.photos ∧
    (resolveCamera db c).1.lenses = db.lenses ∧
    (resolveCamera db c).1.nextLensId = db.nextLensId ∧
    lookupCamera (resolveCamera db c).1 (resolveCamera db c).2 = some c ∧
    (∀ i c0, lookupCamera db i = some c0 →
      lookupCamera (resolveCamera db c).1 i = some c0) ∧
    ((resolveCamera db c).1.cameras.map Prod.fst).Nodup ∧
    (∀ r ∈ (resolveCamera db c).1.cameras, r.1 < (resolveCamera db c).1.nextCameraId) ∧
    ((resolveCamera db c).1.cameras.map Prod.snd).Nodup := by
  cases hc : getCameraId db c with
  | some cid =>
    have heq : resolveCamera db c = (db, cid) := by
      simp [resolveCamera, hc]
    rw [heq]
    refine ⟨rfl, rfl, rfl, ?_, fun i c0 h => h, hg.camIds, hg.camBound, hg.camAttrs⟩
    unfold getCameraId at hc
    cases hf : db.cameras.find? (fun r => r.2 = c) with
    | none => rw [hf] at hc; simp at hc
    | some r =>
      rw [hf] at hc
      have hr1 : r.1 = cid := by simpa using hc
      have hr2 : r.2 = c := by simpa using List.find?_some hf
      have hmem := List.mem_of_find?_eq_some hf
      show lookupCamera db cid = some c
      unfold lookupCamera
      rw [← hr1]
      have hfind : db.cameras.find? (fun x => x.1 = r.1) = some r := by
        have := find?_of_nodup_map Prod.fst hg.camIds hmem
        simpa using this
      rw [hfind]
      simp [hr2]
  | none =>
    have hnotin : ∀ r ∈ db.cameras, ¬ r.2 = c := by
      intro r hr
      unfold getCameraId at hc
      cases hf : db.cameras.find? (fun x => x.2 = c) with
      | none =>
        have := List.find?_eq_none.mp hf r hr
        simpa using this
      | some x => rw [hf] at hc; simp at hc
    have heq : resolveCamera db c =
        ({ db with cameras := db.cameras ++ [(db.nextCameraId, c)],
                   nextCameraId := db.nextCameraId + 1 }, db.nextCameraId) := by
      simp [resolveCamera, hc]
    rw [heq]
    refine ⟨rfl, rfl, rfl, ?_, ?_, ?_, ?_, ?_⟩
    · show lookupCamera _ db.nextCameraId = some c
      unfold lookupCamera
      show ((db.cameras ++ [(db.nextCameraId, c)]).find?
        (fun r => r.1 = db.nextCameraId)).map (fun r => r.2) = some c
      rw [List.find?_append]
      have h1 : db.cameras.find? (fun r => r.1 = db.nextCameraId) = none := by
        rw [List.find?_eq_none]
        intro r hr
        have := hg.camBound r hr
        simp
        omega
      rw [h1]
      simp
    · intro i c0 h
      unfold lookupCamera at h ⊢
      show ((db.cameras ++ [(db.nextCameraId, c)]).find?
        (fun r => r.1 = i)).map (fun r => r.2) = some c0
      rw [List.find?_append]
      cases hf : db.cameras.find? (fun r => r.1 = i) with
      | none => rw [hf] at h; simp at h
      | some r =>
        rw [hf] at h
        simpa using h
    · show ((db.cameras ++ [(db.nextCameraId, c)]).map Prod.fst).Nodup
      rw [List.map_append, List.nodup_append]
      refine ⟨hg.camIds, by simp, ?_⟩
      intro a ha hb
      simp at hb
      simp only [List.mem_map] at ha
      obtain ⟨x, hx, rfl⟩ := ha
      exact absurd hb (Nat.ne_of_lt (hg.camBound x hx))
    · intro r hr
      show r.1 < db.nextCameraId + 1
      rcases List.mem_append.mp hr with hr | hr
      · exact Nat.lt_succ_of_lt (hg.camBound r hr)
      · simp at hr
        rw [hr]
        exact Nat.lt_succ_self _
    · show ((db.cameras ++ [(db.nextCameraId, c)]).map Prod.snd).Nodup
      rw [List.map_append, List.nodup_append]
      refine ⟨hg.camAttrs, by simp, ?_⟩
      intro a ha hb
      simp at hb
      simp only [List.mem_map] at ha
      obtain ⟨x, hx, rfl⟩ := ha
      exact absurd hb (hnotin x hx)

/-- Helper: everything the new-photo lens resolution guarantees. -/
theorem resolveLens_spec (db : DBState) (l : LensAttrs) (hg : GoodDB db) :
    (resolveLens db l).1.photos = db.photos ∧
    (resolveLens db l).1.cameras = db.cameras ∧
    (resolveLens db l).1.nextCameraId = db.nextCameraId ∧
    lookupLens (resolveLens db l).1 (resolveLens db l).2 = some l ∧
    (∀ i l0, lookupLens db i = some l0 →
      lookupLens (resolveLens db l).1 i = some l0) ∧
    ((resolveLens db l).1.lenses.map Prod.fst).Nodup ∧
    (∀ r ∈ (resolveLens db l).1.lenses, r.1 < (resolveLens db l).1.nextLensId) ∧
    ((resolveLens db l).1.lenses.map Prod.snd).Nodup := by
  cases hc : getLensId db l with
  | some lid =>
    have heq : resolveLens db l = (db, lid) := by
      simp [resolveLens, hc]
    rw [heq]
    refine ⟨rfl, rfl, rfl, ?_, fun i l0 h => h, hg.lensIds, hg.lensBound, hg.lensAttrs⟩
    unfold getLensId at hc
    cases hf : db.lenses.find? (fun r => r.2 = l) with
    | none => rw [hf] at hc; simp at hc
    | some r =>
      rw [hf] at hc
      have hr1 : r.1 = lid := by simpa using hc
      have hr2 : r.2 = l := by simpa using List.find?_some hf
      have hmem := List.mem_of_find?_eq_some hf
      show lookupLens db lid = some l
      unfold lookupLens
      rw [← hr1]
      have hfind : db.lenses.find? (fun x => x.1 = r.1) = some r := by
        have := find?_of_nodup_map Prod.fst hg.lensIds hmem
        simpa using this
      rw [hfind]
      simp [hr2]
  | none =>
    have hnotin : ∀ r ∈ db.lenses, ¬ r.2 = l := by
      intro r hr
      unfold getLensId at hc
      cases hf : db.lenses.find? (fun x => x.2 = l) with
      | none =>
        have := List.find?_eq_none.mp hf r hr
        simpa using this
      | some x => rw [hf] at hc; simp at hc
    have heq : resolveLens db l =
        ({ db with lenses := db.lenses ++ [(db.nextLensId, l)],
                   nextLensId := db.nextLensId + 1 }, db.nextLensId) := by
      simp [resolveLens, hc]
    rw [heq]
    refine ⟨rfl, rfl, rfl, ?_, ?_, ?_, ?_, ?_⟩
    · show lookupLens _ db.nextLensId = some l
      unfold lookupLens
      show ((db.lenses ++ [(db.nextLensId, l)]).find?
        (fun r => r.1 = db.nextLensId)).map (fun r => r.2) = some l
      rw [List.find?_append]
      have h1 : db.lenses.find? (fun r => r.1 = db.nextLensId) = none := by
        rw [List.find?_eq_none]
        intro r hr
        have := hg.lensBound r hr
        simp
        omega
      rw [h1]
      simp
    · intro i l0 h
      unfold lookupLens at h ⊢
      show ((db.lenses ++ [(db.nextLensId, l)]).find?
        (fun r => r.1 = i)).map (fun r => r.2) = some l0
      rw [List.find?_append]
      cases hf : db.lenses.find? (fun r => r.1 = i) with
      | none => rw [hf] at h; simp at h
      | some r =>
        rw [hf] at h
        simpa using h
    · show ((db.lenses ++ [(db.nextLensId, l)]).map Prod.fst).Nodup
      rw [List.map_append, List.nodup_append]
      refine ⟨hg.lensIds, by simp, ?_⟩
      intro a ha hb
      simp at hb
      simp only [List.mem_map] at ha
      obtain ⟨x, hx, rfl⟩ := ha
      exact absurd hb (Nat.ne_of_lt (hg.lensBound x hx))
    · intro r hr
      show r.1 < db.nextLensId + 1
      rcases List.mem_append.mp hr with hr | hr
      · exact Nat.lt_succ_of_lt (hg.lensBound r hr)
      · simp at hr
        rw [hr]
        exact Nat.lt_succ_self _
    · show ((db.lenses ++ [(db.nextLensId, l)]).map Prod.snd).Nodup
      rw [List.map_append, List.nodup_append]
      refine ⟨hg.lensAttrs, by simp, ?_⟩
      intro a ha hb
      simp at hb
      simp only [List.mem_map] at ha
      obtain ⟨x, hx, rfl⟩ := ha
      exact absurd hb (hnotin x hx)

/-- Helper: the camera lookup ignores the photos table. -/
theorem lookupCamera_photos (db : DBState) (ps : List Photo) (i : Nat) :
    lookupCamera { db with photos := ps } i = lookupCamera db i := rfl

/-- Helper: the lens lookup ignores the photos table. -/
theorem lookupLens_photos (db : DBState) (ps : List Photo) (i : Nat) :
    lookupLens { db with photos := ps } i = lookupLens db i := rfl

/-- Helper: camera lookups agree on states with the same cameras table. -/
theorem lookupCamera_congr {dbA dbB : DBState} (h : dbA.cameras = dbB.cameras)
    (i : Nat) : lookupCamera dbA i = lookupCamera dbB i := by
  unfold lookupCamera
  rw [h]

/-- Helper: lens lookups agree on states with the same lenses table. -/
theorem lookupLens_congr {dbA dbB : DBState} (h : dbA.lenses = dbB.lenses)
    (i : Nat) : lookupLens dbA i = lookupLens dbB i := by
  unfold lookupLens
  rw [h]

/-- Helper: everything one _apply_metadata call on an unseen key guarantees:
the row counts as new and not updated, well-formedness and all previously
established consistency facts survive, the state becomes consistent with the
new record, and no other absent key appears. -/
theorem applyMetadata_new (db : DBState) (m : PhotoMetadata) (hg : GoodDB db)
    (hfind : findPhoto db m.key = none) :
    (applyMetadata db m).isNew = true ∧
    (applyMetadata db m).isUpdated = false ∧
    GoodDB (applyMetadata db m).db ∧
    Consistent (applyMetadata db m).db m ∧
    (∀ m0, Consistent db m0 → Consistent (applyMetadata db m).db m0) ∧
    (∀ k, findPhoto db k = none → ¬ k = m.key →
      findPhoto (applyMetadata db m).db k = none) := by
  have hfind0 : db.photos.find? (fun q => q.key = m.key) = none := hfind
  obtain ⟨hcph, hcln, hcnl, hcLook, hcPres, hcIds, hcBound, hcAttrs⟩ :=
    resolveCamera_spec db m.camera hg
  have hg1 : GoodDB (resolveCamera db m.camera).1 := by
    refine ⟨?_, hcIds, hcBound, hcAttrs, ?_, ?_, ?_⟩
    · rw [hcph]; exact hg.photoKeys
    · rw [hcln]; exact hg.lensIds
    · intro r hr
      rw [hcnl]
      rw [hcln] at hr
      exact hg.lensBound r hr
    · rw [hcln]; exact hg.lensAttrs
  obtain ⟨hlph, hlcm, hlnc, hlLook, hlPres, hlIds, hlBound, hlAttrs⟩ :=
    resolveLens_spec (resolveCamera db m.camera).1 m.lens hg1
  have hg2 : GoodDB (resolveLens (resolveCamera db m.camera).1 m.lens).1 := by
    refine ⟨?_, ?_, ?_, ?_, hlIds, hlBound, hlAttrs⟩
    · rw [hlph, hcph]; exact hg.photoKeys
    · rw [hlcm]; exact hcIds
    · intro r hr
      rw [hlnc]
      rw [hlcm] at hr
      exact hcBound r hr
    · rw [hlcm]; exact hcAttrs
  have hph2 : (resolveLens (resolveCamera db m.camera).1 m.lens).1.photos
      = db.photos := by
    rw [hlph, hcph]
  have happly : applyMetadata db m = {
      db := {
        (resolveLens (resolveCamera db m.camera).1 m.lens).1 with
        photos := (resolveLens (resolveCamera db m.camera).1 m.lens).1.photos ++
          [newPhotoRow m (resolveCamera db m.camera).2
            (resolveLens (resolveCamera db m.camera).1 m.lens).2] },
      isNew := true,
      isUpdated := false } := by
    unfold applyMetadata
    rw [hfind]
  rw [happly]
  refine ⟨rfl, rfl, ?_, ?_, ?_, ?_⟩
  · refine ⟨?_, hg2.camIds, hg2.camBound, hg2.camAttrs, hg2.lensIds,
      hg2.lensBound, hg2.lensAttrs⟩
    show (((resolveLens (resolveCamera db m.camera).1 m.lens).1.photos ++
      [newPhotoRow m (resolveCamera db m.camera).2
        (resolveLens (resolveCamera db m.camera).1 m.lens).2]).map Photo.key).Nodup
    rw [hph2, List.map_append, List.nodup_append]
    refine ⟨hg.photoKeys, by simp, ?_⟩
    intro a ha hb
    simp only [List.map_cons, List.map_nil, List.mem_singleton] at hb
    simp only [List.mem_map] at ha
    obtain ⟨q, hq, rfl⟩ := ha
    have h2 := List.find?_eq_none.mp hfind0 q hq
    simp at h2
    refine h2 ?_
    rw [hb]
    simp [newPhotoRow, Photo.key, PhotoMetadata.key]
  · refine ⟨newPhotoRow m (resolveCamera db m.camera).2
      (resolveLens (resolveCamera db m.camera).1 m.lens).2, ?_, rfl, ?_, ?_⟩
    · show ((resolveLens (resolveCamera db m.camera).1 m.lens).1.photos ++
        [newPhotoRow m (resolveCamera db m.camera).2
          (resolveLens (resolveCamera db m.camera).1 m.lens).2]).find?
        (fun q => q.key = m.key) = some (newPhotoRow m
          (resolveCamera db m.camera).2
          (resolveLens (resolveCamera db m.camera).1 m.lens).2)
      rw [hph2, List.find?_append, hfind0]
      rw [List.find?_cons_of_pos]
      · rfl
      · simp [newPhotoRow, Photo.key, PhotoMetadata.key]
    · show lookupCamera _ (resolveCamera db m.camera).2 = some m.camera
      rw [lookupCamera_photos, lookupCamera_congr hlcm]
      exact hcLook
    · show lookupLens _ (resolveLens (resolveCamera db m.camera).1 m.lens).2
        = some m.lens
      rw [lookupLens_photos]
      exact hlLook
  · intro m0 hc0
    obtain ⟨p, hf, ha, hcam, hlen⟩ := hc0
    have hf0 : db.photos.find? (fun q => q.key = m0.key) = some p := hf
    refine ⟨p, ?_, ha, ?_, ?_⟩
    · show ((resolveLens (resolveCamera db m.camera).1 m.lens).1.photos ++
        [newPhotoRow m (resolveCamera db m.camera).2
          (resolveLens (resolveCamera db m.camera).1 m.lens).2]).find?
        (fun q => q.key = m0.key) = some p
      rw [hph2, List.find?_append, hf0]
      rfl
    · show lookupCamera _ p.cameraId = some m0.camera
      rw [lookupCamera_photos, lookupCamera_congr hlcm]
      exact hcPres p.cameraId m0.camera hcam
    · show lookupLens _ p.lensId = some m0.lens
      rw [lookupLens_photos]
      refine hlPres p.lensId m0.lens ?_
      rw [lookupLens_congr hcln]
      exact hlen
  · intro k hk hne
    have hk0 : db.photos.find? (fun q => q.key = k) = none := hk
    show ((resolveLens (resolveCamera db m.camera).1 m.lens).1.photos ++
      [newPhotoRow m (resolveCamera db m.camera).2
        (resolveLens (resolveCamera db m.camera).1 m.lens).2]).find?
      (fun q => q.key = k) = none
    rw [hph2, List.find?_append, hk0]
    rw [List.find?_cons_of_neg, List.find?_nil]
    · rfl
    · simp [newPhotoRow, Photo.key, PhotoMetadata.key]
      intro h
      exact hne h.symm

/-- Helper: a first pass over pairwise-distinct fresh keys creates one new
row per record (zero updates), keeps the database well-formed, and leaves it
consistent with every processed record. -/
theorem runPreprocess_fresh (ms : List PhotoMetadata) (db : DBState)
    (hg : GoodDB db)
    (hnd : (ms.map PhotoMetadata.key).Nodup)
    (hfresh : ∀ m ∈ ms, findPhoto db m.key = none) :
    GoodDB (runPreprocess db ms).1 ∧
    (∀ m ∈ ms, Consistent (runPreprocess db ms).1 m) ∧
    (∀ m0, Consistent db m0 → Consistent (runPreprocess db ms).1 m0) ∧
    (runPreprocess db ms).2.1 = ms.length ∧
    (runPreprocess db ms).2.2 = 0 := by
  induction ms generalizing db with
  | nil => exact ⟨hg, by simp, fun m0 h => h, rfl, rfl⟩
  | cons m ms ih =>
    obtain ⟨hnew, hupd, hg1, hcons1, hpres1, hnone1⟩ :=
      applyMetadata_new db m hg (hfresh m (List.mem_cons_self m ms))
    have hnd1 : (ms.map PhotoMetadata.key).Nodup := (List.nodup_cons.mp hnd).2
    have hne : ∀ m0 ∈ ms, ¬ m0.key = m.key := by
      intro m0 hm0 hk
      exact (List.nodup_cons.mp hnd).1
        (by rw [← hk]; exact List.mem_map_of_mem PhotoMetadata.key hm0)
    have hfresh1 : ∀ m0 ∈ ms, findPhoto (applyMetadata db m).db m0.key = none := by
      intro m0 hm0
      exact hnone1 m0.key (hfresh m0 (List.mem_cons_of_mem m hm0)) (hne m0 hm0)
    obtain ⟨hgf, hconsf, hpresf, hc1, hc2⟩ :=
      ih (applyMetadata db m).db hg1 hnd1 hfresh1
    have hstep : runPreprocess db (m :: ms) =
        ((runPreprocess (applyMetadata db m).db ms).1,
         (if (applyMetadata db m).isNew then 1 else 0) +
           (runPreprocess (applyMetadata db m).db ms).2.1,
         (if (applyMetadata db m).isUpdated then 1 else 0) +
           (runPreprocess (applyMetadata db m).db ms).2.2) := rfl
    rw [hstep]
    refine ⟨hgf, ?_, fun m0 h => hpresf m0 (hpres1 m0 h), ?_, ?_⟩
    · intro m0 hm0
      rcases List.mem_cons.mp hm0 with h | h
      · rw [h]
        exact hpresf m hcons1
      · exact hconsf m0 h
    · rw [hnew, hc1]
      show 1 + ms.length = ms.length + 1
      omega
    · rw [hupd, hc2]
      rfl

/-- Helper: on a database already consistent with a record, _apply_metadata
is the identity: not new, not updated, and no table changes. -/
theorem applyMetadata_consistent (db : DBState) (m : PhotoMetadata)
    (hg : GoodDB db) (hc : Consistent db m) :
    applyMetadata db m = { db := db, isNew := false, isUpdated := false } := by
  obtain ⟨p, hf, ha, hcam, hlen⟩ := hc
  have hf0 : db.photos.find? (fun q => q.key = m.key) = some p := hf
  have hrc : renewCamera db p m.camera = (db, p.cameraId) := by
    simp [renewCamera, hcam]
  have hrl : renewLens db p m.lens = (db, p.lensId) := by
    simp [renewLens, hlen]
  have hp1 : ({ p with
      attrs := m.attrs,
      cameraId := p.cameraId,
      lensId := p.lensId } : Photo) = p := by
    rw [← ha]
  have hpk : p.key = m.key := by
    have := List.find?_some hf0
    simpa using this
  have hmap : db.photos.map (fun q => if q.key = m.key then p else q)
      = db.photos := by
    have hid : ∀ q ∈ db.photos, (if q.key = m.key then p else q) = q := by
      intro q hq
      by_cases h : q.key = m.key
      · rw [if_pos h]
        have hpmem : p ∈ db.photos := List.mem_of_find?_eq_some hf0
        exact List.inj_on_of_nodup_map hg.photoKeys hpmem hq (hpk.trans h.symm)
      · rw [if_neg h]
    rw [List.map_congr_left hid]
    exact List.map_id db.photos
  have hdec : decide (¬ p = p) = false := by
    simp
  unfold applyMetadata
  rw [hf]
  simp only [hrc, hrl]
  rw [hp1, hmap, hdec]

/-- Helper: a second pass over records the database is already consistent
with changes nothing and reports zero new and zero updated rows. -/
theorem runPreprocess_idem (ms : List PhotoMetadata) (db : DBState)
    (hg : GoodDB db) (hc : ∀ m ∈ ms, Consistent db m) :
    runPreprocess db ms = (db, 0, 0) := by
  induction ms with
  | nil => rfl
  | cons m ms ih =>
    have h1 : applyMetadata db m =
        { db := db, isNew := false, isUpdated := false } :=
      applyMetadata_consistent db m hg (hc m (List.mem_cons_self m ms))
    have hstep : runPreprocess db (m :: ms) =
        ((runPreprocess (applyMetadata db m).db ms).1,
         (if (applyMetadata db m).isNew then 1 else 0) +
           (runPreprocess (applyMetadata db m).db ms).2.1,
         (if (applyMetadata db m).isUpdated then 1 else 0) +
           (runPreprocess (applyMetadata db m).db ms).2.2) := rfl
    rw [hstep, h1]
    show ((runPreprocess db ms).1, (if false then 1 else 0) +
      (runPreprocess db ms).2.1, (if false then 1 else 0) +
      (runPreprocess db ms).2.2) = (db, 0, 0)
    rw [ih (fun m0 h => hc m0 (List.mem_cons_of_mem m h))]
    rfl

/-- Helper: consistency plus the unique constraint on camera attribute
tuples means get_camera_id returns exactly the already linked id. -/
theorem consistent_camera_lookup {db : DBState} (hg : GoodDB db)
    {m : PhotoMetadata} {p : Photo}
    (hcam : lookupCamera db p.cameraId = some m.camera) :
    getCameraId db m.camera = some p.cameraId := by
  have hmem := lookupCamera_mem hcam
  unfold getCameraId
  rw [find?_pair_snd hg.camAttrs hmem]
  rfl

/-- Helper: consistency plus the unique constraint on lens attribute tuples
means get_lens_id returns exactly the already linked id. -/
theorem consistent_lens_lookup {db : DBState} (hg : GoodDB db)
    {m : PhotoMetadata} {p : Photo}
    (hlen : lookupLens db p.lensId = some m.lens) :
    getLensId db m.lens = some p.lensId := by
  have hmem := lookupLens_mem hlen
  unfold getLensId
  rw [find?_pair_snd hg.lensAttrs hmem]
  rfl

/-- C1: preprocess is idempotent. Over any scanned metadata list with
pairwise distinct (date, group, file_name) keys, a second run of the
database pass on the state produced by the first run yields zero new and
zero updated rows and leaves every table byte-for-byte unchanged; moreover
after the first run every photo row carries exactly its metadata attributes
and get_camera_id / get_lens_id (None matching None) return the ids already
linked to the row, so no Camera or Lens row is created or mutated. -/
theorem claim_C1_preprocess_idempotent (ms : List PhotoMetadata)
    (hnd : (ms.map PhotoMetadata.key).Nodup) :
    runPreprocess (runPreprocess emptyDB ms).1 ms
      = ((runPreprocess emptyDB ms).1, 0, 0) ∧
    ∀ m ∈ ms, ∃ p : Photo,
      findPhoto (runPreprocess emptyDB ms).1 m.key = some p ∧
      p.attrs = m.attrs ∧
      getCameraId (runPreprocess emptyDB ms).1 m.camera = some p.cameraId ∧
      getLensId (runPreprocess emptyDB ms).1 m.lens = some p.lensId := by
  have hge : GoodDB emptyDB := ⟨by simp [emptyDB], by simp [emptyDB],
    by simp [emptyDB], by simp [emptyDB], by simp [emptyDB], by simp [emptyDB],
    by simp [emptyDB]⟩
  have hfresh : ∀ m ∈ ms, findPhoto emptyDB m.key = none := fun m _ => rfl
  obtain ⟨hg1, hcons1, hpres1, hcnt1, hcnt2⟩ :=
    runPreprocess_fresh ms emptyDB hge hnd hfresh
  refine ⟨runPreprocess_idem ms (runPreprocess emptyDB ms).1 hg1 hcons1, ?_⟩
  intro m hm
  obtain ⟨p, hf, ha, hcam, hlen⟩ := hcons1 m hm
  exact ⟨p, hf, ha, consistent_camera_lookup hg1 hcam,
    consistent_lens_lookup hg1 hlen⟩

/-- C1 witness: the idempotence theorem applied to the one-photo demo
project. -/
theorem claim_C1_preprocess_idempotent_witness :
    ([demoMetadata].map PhotoMetadata.key).Nodup ∧
    (runPreprocess (runPreprocess emptyDB [demoMetadata]).1 [demoMetadata]
      = ((runPreprocess emptyDB [demoMetadata]).1, 0, 0) ∧
    ∀ m ∈ [demoMetadata], ∃ p : Photo,
      findPhoto (runPreprocess emptyDB [demoMetadata]).1 m.key = some p ∧
      p.attrs = m.attrs ∧
      getCameraId (runPreprocess emptyDB [demoMetadata]).1 m.camera
        = some p.cameraId ∧
      getLensId (runPreprocess emptyDB [demoMetadata]).1 m.lens
        = some p.lensId) :=
  ⟨by simp, claim_C1_preprocess_idempotent [demoMetadata] (by simp)⟩

end Tlmerge
